import Mathlib

/-!
Verification development for the memory CLI's GEPA subsystem
(`src/hooks/memory-cli.py`): the layered memory-classification and
fitness-scoring engine over a SQLite table of memory nodes.

Modelling conventions (shallow embedding of the Python source):
* SQLite REAL values are modelled as `ℚ` (the source works with Python
  floats; all the constants of the policy logic are short decimals).
* Timestamp columns (`created_at`, `accessed_at`, `deprecated_at`) are
  modelled as `Option Int`: the integer is the timestamp measured in whole
  days (the only use the engine makes of a timestamp is
  `(now - last_access).days`), and `none` stands for a string that
  `datetime.fromisoformat` cannot parse.
* A SQL row set is a `List Node`; `UPDATE ... WHERE id = ?` becomes a map
  over the list guarded by the id test.
* Python argparse options that may be absent are `Option String`;
  the idiom `args.x or default` (which also replaces falsy values such as
  `""` or `0`) is modelled explicitly.
* `LOWER()` / `str.lower()` are both modelled by `Char.toLower` on the
  character list (ASCII case folding), and `LIKE '%w%'` by list-infix
  containment (tokens are treated as wildcard-free, which all the claims'
  inputs are).
-/

/-- A row of the `nodes` table, after the GEPA migration has been applied
(all seven GEPA columns exist).  Field names follow the schema. -/
structure Node where
  id : String
  agent_id : String
  node_type : String
  content : String
  metadata : String
  importance : ℚ
  created_at : Option Int
  accessed_at : Option Int
  access_count : Int
  memory_layer : String
  version : Int
  deprecated_at : Option Int
  fitness : ℚ
  generation : Int
  promoted_from : Option String
  quarantine_until : Option String
deriving DecidableEq

/-- A row of the `relations` table. -/
structure Relation where
  agent_id : String
  source_id : String
  target_id : String
  relation_type : String
deriving DecidableEq

/-- The fixed agent namespace: every query path is scoped to it. -/
def AGENT_ID : String := ("claude-code")

/-- Python truthiness of an optional string argument (`if args.x:`):
`None` and `""` are falsy. -/
def truthyS : Option String → Bool
  | none => false
  | some s => s ≠ ""

/-- Models `args.importance or 0.5`: a falsy (zero) importance argument
is replaced by the default. -/
def effImportance (imp : ℚ) : ℚ :=
  if imp = 0 then 0.5 else imp

/-- Layer auto-classification of `cmd_gepa_store`: an explicit truthy
`--layer` wins; otherwise `file` for file nodes, `constant` for
pattern/decision nodes with importance ≥ 0.8, else `mutating`. -/
def classifyLayer (layerArg : Option String) (ty : String) (imp : ℚ) : String :=
  if truthyS layerArg then layerArg.getD ("mutating")
  else if ty = ("file") then ("file")
  else if (ty = ("pattern") ∨ ty = ("decision")) ∧ 0.8 ≤ imp then ("constant")
  else ("mutating")

/-- The node inserted by `cmd_gepa_store` (migrated path): sets
`access_count = 0`, `generation = 0`, `fitness = importance`, layer by
`classifyLayer`; `version` takes the schema default 1 and the nullable
GEPA columns stay NULL.  PII redaction of `content` is glue out of scope
and not modelled. -/
def cmd_gepa_store (value ty : String) (importanceArg : ℚ)
    (layerArg : Option String) (nowDays : Int) (nodeId : String) : Node :=
  let importance := effImportance importanceArg
  let layer := classifyLayer layerArg ty importance
  { id := nodeId
    agent_id := AGENT_ID
    node_type := ty
    content := value
    metadata := ("\x7b\x7d")
    importance := importance
    created_at := some nowDays
    accessed_at := some nowDays
    access_count := 0
    memory_layer := layer
    version := 1
    deprecated_at := none
    fitness := importance
    generation := 0
    promoted_from := none
    quarantine_until := none }

/-- The node inserted by the plain `fast_store` path when the GEPA
migration has already been applied: the INSERT names only the base
columns, so every GEPA column takes its schema default
(`memory_layer = 'mutating'`, `version = 1`, `fitness = 0.5`,
`generation = 0`, nullable columns NULL). -/
def fast_store (content ty : String) (importance : ℚ)
    (nowDays : Int) (nodeId : String) : Node :=
  { id := nodeId
    agent_id := AGENT_ID
    node_type := ty
    content := content
    metadata := ("\x7b\x7d")
    importance := importance
    created_at := some nowDays
    accessed_at := some nowDays
    access_count := 0
    memory_layer := ("mutating")
    version := 1
    deprecated_at := none
    fitness := 0.5
    generation := 0
    promoted_from := none
    quarantine_until := none }

/-- The integer numerator (against denominator 10000) that Python
`round(x, 4)` picks: nearest, ties to the even one. -/
def round4Int (q : ℚ) : ℤ :=
  if q * 10000 - (Int.floor (q * 10000) : ℚ) < 1/2 then Int.floor (q * 10000)
  else if 1/2 < q * 10000 - (Int.floor (q * 10000) : ℚ) then
    Int.floor (q * 10000) + 1
  else if Int.floor (q * 10000) % 2 = 0 then Int.floor (q * 10000)
  else Int.floor (q * 10000) + 1

/-- Python `round(x, 4)`: the nearest multiple of `1/10000`, ties going
to the even multiple. -/
def round4 (q : ℚ) : ℚ := (round4Int q : ℚ) / 10000

/-- The inbound-edge count `SELECT COUNT(*) FROM relations WHERE
target_id = ?` — no agent or deprecation scoping. -/
def inboundCount (rels : List Relation) (nodeId : String) : Nat :=
  (rels.filter (fun r => r.target_id = nodeId)).length

/-- The normalisation divisor `COALESCE(MAX(access_count), 1)` over the
(layer-filtered) rows, then the Python `or 1` that turns a 0 maximum
into 1. -/
def maxAccessOf (rows : List Node) : Int :=
  match rows.map (fun n => n.access_count) with
  | [] => 1
  | a :: rest =>
    let m := rest.foldl max a
    if m = 0 then 1 else m

/-- Models `(now - last_access).days`, with an unparseable `accessed_at`
treated as fully fresh (`days_since = 0`). -/
def daysSince (nowDays : Int) (n : Node) : Int :=
  match n.accessed_at with
  | none => 0
  | some t => nowDays - t

/-- The usage signal `norm_access = access_count / max_access`. -/
def normAccess (maxAcc : Int) (n : Node) : ℚ :=
  (n.access_count : ℚ) / (maxAcc : ℚ)

/-- The recency signal `age_factor = max(0.0, 1.0 - days_since /
max_age_days)` — note the source has no upper clamp at 1. -/
def ageFactor (nowDays : Int) (maxAgeDays : ℚ) (n : Node) : ℚ :=
  max 0 (1 - (daysSince nowDays n : ℚ) / maxAgeDays)

/-- The graph signal `referral_factor = min(1.0, inbound / 5.0)`. -/
def referralFactor (rels : List Relation) (n : Node) : ℚ :=
  min 1 ((inboundCount rels n.id : ℚ) / 5)

/-- The weighted fitness score written back by `cmd_fitness_update`. -/
def computeFitness (nowDays : Int) (maxAgeDays : ℚ) (maxAcc : Int)
    (rels : List Relation) (n : Node) : ℚ :=
  round4 (0.3 * normAccess maxAcc n + 0.3 * n.importance
    + 0.2 * ageFactor nowDays maxAgeDays n + 0.2 * referralFactor rels n)

/-- The optional `WHERE memory_layer = ?` restriction (`if args.layer:`,
so only a truthy filter restricts). -/
def layerSelect (layerFilter : Option String) (n : Node) : Bool :=
  if truthyS layerFilter then n.memory_layer = layerFilter.getD ("") else true

/-- Bulk recomputation `cmd_fitness_update`: writes back the fitness of every
row passing the (optional) layer filter — there is no `agent_id` and no
`deprecated_at` restriction in the source.  Returns the updated table and
the reported update count.  `maxAgeDaysArg` goes through the Python
`or 90` (a 0 argument falls back to the default). -/
def cmd_fitness_update (nowDays : Int) (maxAgeDaysArg : Int)
    (layerFilter : Option String) (nodes : List Node) (rels : List Relation) :
    List Node × Nat :=
  let maxAgeDays : ℚ := if maxAgeDaysArg = 0 then 90 else (maxAgeDaysArg : ℚ)
  let maxAcc := maxAccessOf (nodes.filter (layerSelect layerFilter))
  (nodes.map (fun n =>
      if layerSelect layerFilter n then
        { n with fitness := computeFitness nowDays maxAgeDays maxAcc rels n }
      else n),
   (nodes.filter (layerSelect layerFilter)).length)

/-- Lower-casing `s.lower()` / `LOWER(s)`, modelled as ASCII case
folding on the character list. -/
def lowerChars (s : String) : List Char := s.toList.map Char.toLower

/-- The tokenizer `search_term.lower().split()[:5]`: split on whitespace
runs, drop empties, keep at most 5 tokens. -/
def pyTokens (s : String) : List (List Char) :=
  (((lowerChars s).splitOnP Char.isWhitespace).filter (fun w => w ≠ [])).take 5

/-- The OR-combined `LOWER(content) LIKE '%w%'` clauses: with no tokens no
clause is added (every row matches); otherwise at least one token must be
an (ASCII-case-insensitive) substring of the content. -/
def matchesText (q : String) (n : Node) : Bool :=
  let ws := pyTokens q
  ws.isEmpty || ws.any (fun w => w <:+: lowerChars n.content)

/-- The ordering `ORDER BY fitness DESC, importance DESC` as a total
preorder: `a` may come before `b`. -/
def fitOrder (a b : Node) : Prop :=
  b.fitness < a.fitness ∨ (b.fitness = a.fitness ∧ b.importance ≤ a.importance)

instance : DecidableRel fitOrder :=
  fun a b => by unfold fitOrder; exact inferInstance

instance : IsTotal Node fitOrder := by
  constructor
  intro a b
  unfold fitOrder
  rcases lt_trichotomy a.fitness b.fitness with h | h | h
  · exact Or.inr (Or.inl h)
  · rcases le_total a.importance b.importance with hi | hi
    · exact Or.inr (Or.inr ⟨h, hi⟩)
    · exact Or.inl (Or.inr ⟨h.symm, hi⟩)
  · exact Or.inl (Or.inl h)

instance : IsTrans Node fitOrder := by
  constructor
  intro a b c hab hbc
  unfold fitOrder at *
  rcases hab with h1 | ⟨h1, h1i⟩ <;> rcases hbc with h2 | ⟨h2, h2i⟩
  · exact Or.inl (h2.trans h1)
  · exact Or.inl (h2 ▸ h1)
  · exact Or.inl (h1 ▸ h2)
  · exact Or.inr ⟨h2.trans h1, h2i.trans h1i⟩

/-- The ordering `ORDER BY importance DESC, access_count DESC` as a
total preorder. -/
def impOrder (a b : Node) : Prop :=
  b.importance < a.importance ∨
    (b.importance = a.importance ∧ b.access_count ≤ a.access_count)

instance : DecidableRel impOrder :=
  fun a b => by unfold impOrder; exact inferInstance

instance : IsTotal Node impOrder := by
  constructor
  intro a b
  unfold impOrder
  rcases lt_trichotomy a.importance b.importance with h | h | h
  · exact Or.inr (Or.inl h)
  · rcases le_total a.access_count b.access_count with hi | hi
    · exact Or.inr (Or.inr ⟨h, hi⟩)
    · exact Or.inl (Or.inr ⟨h.symm, hi⟩)
  · exact Or.inl (Or.inl h)

instance : IsTrans Node impOrder := by
  constructor
  intro a b c hab hbc
  unfold impOrder at *
  rcases hab with h1 | ⟨h1, h1i⟩ <;> rcases hbc with h2 | ⟨h2, h2i⟩
  · exact Or.inl (h2.trans h1)
  · exact Or.inl (h2 ▸ h1)
  · exact Or.inl (h1 ▸ h2)
  · exact Or.inr ⟨h2.trans h1, h2i.trans h1i⟩

/-- The GEPA query `cmd_gepa_query` (migrated path): agent-scoped, optional layer filter,
keyword clauses, `ORDER BY fitness DESC, importance DESC`, then
`LIMIT (args.limit or 10)` — deprecated rows are NOT excluded. -/
def cmd_gepa_query (q : String) (layerFilter : Option String)
    (limitArg : Nat) (nodes : List Node) : List Node :=
  let effLimit := if limitArg = 0 then 10 else limitArg
  let selected := nodes.filter (fun n =>
    n.agent_id = AGENT_ID && layerSelect layerFilter n && matchesText q n)
  (List.insertionSort fitOrder selected).take effLimit

/-- The plain query `fast_query`: agent-scoped keyword search with optional node-type
filter, `ORDER BY importance DESC, access_count DESC LIMIT ?`. -/
def fast_query (searchTerm : String) (limit : Nat)
    (typeFilter : Option String) (nodes : List Node) : List Node :=
  let selected := nodes.filter (fun n =>
    n.agent_id = AGENT_ID && matchesText searchTerm n &&
    (if truthyS typeFilter then n.node_type = typeFilter.getD ("") else true))
  (List.insertionSort impOrder selected).take limit

/-- A decimal-digit character's value. -/
def digitVal? (c : Char) : Option Nat :=
  if c.isDigit then some (c.toNat - ('0').toNat) else none

/-- Parse a nonempty all-digit character list as a natural number. -/
def digitsToNat? (cs : List Char) : Option Nat :=
  if cs = [] then none
  else cs.foldl (fun acc c =>
    match acc, digitVal? c with
    | some a, some d => some (10 * a + d)
    | _, _ => none) (some 0)

/-- Python `int(s)` on the strings the quarantine field holds: an optional
sign followed by decimal digits (whitespace stripping and underscore
separators are not modelled). -/
def parseIntStr (s : String) : Option Int :=
  match s.toList with
  | '-' :: rest => (digitsToNat? rest).map (fun n => -(n : Int))
  | '+' :: rest => (digitsToNat? rest).map (fun n => (n : Int))
  | cs => (digitsToNat? cs).map (fun n => (n : Int))

/-- The quarantine-resolution row selection:
`quarantine_until IS NOT NULL AND quarantine_until != '' AND
deprecated_at IS NULL AND memory_layer = 'mutating'`. -/
def qSelect (n : Node) : Bool :=
  (match n.quarantine_until with
   | none => false
   | some s => s ≠ ("")) &&
  n.deprecated_at.isNone && n.memory_layer = ("mutating")

/-- The promotion write of `cmd_quarantine_check`. -/
def qPromote (n : Node) : Node :=
  { n with memory_layer := ("constant"), promoted_from := some ("mutating"),
           quarantine_until := none, version := n.version + 1 }

/-- Per-node effect of `cmd_quarantine_check(cycle)`: selected rows with a
parseable target cycle that has been reached are promoted (fitness ≥ 0.8)
or returned to active (`quarantine_until = NULL` only); everything else is
untouched. -/
def qResolve (cycle : Int) (n : Node) : Node :=
  if qSelect n then
    match n.quarantine_until with
    | some s =>
      match parseIntStr s with
      | some qc =>
        if qc ≤ cycle then
          if 0.8 ≤ n.fitness then qPromote n
          else { n with quarantine_until := none }
        else n
      | none => n
    | none => n
  else n

/-- Whether the node's quarantine target cycle parses and has been
reached (`current_cycle >= q_cycle`; unparseable targets are skipped). -/
def qCycleReached (cycle : Int) (n : Node) : Bool :=
  match n.quarantine_until with
  | some s =>
    match parseIntStr s with
    | some qc => qc ≤ cycle
    | none => false
  | none => false

/-- Whether `cmd_quarantine_check(cycle)` resolves the node in this run
(selected, parseable target cycle, cycle reached). -/
def qResolvedNow (cycle : Int) (n : Node) : Bool :=
  qSelect n && qCycleReached cycle n

/-- Quarantine resolution `cmd_quarantine_check`: resolves quarantined rows and reports the
promoted ids, the failed-trial ids, and
`pending = |quarantined| - |promoted| - |failed|`. -/
def cmd_quarantine_check (cycle : Int) (nodes : List Node) :
    List Node × List String × List String × Nat :=
  let quarantined := nodes.filter qSelect
  let promotedIds := (nodes.filter
    (fun n => qResolvedNow cycle n && 0.8 ≤ n.fitness)).map (fun n => n.id)
  let failedIds := (nodes.filter
    (fun n => qResolvedNow cycle n && n.fitness < 0.8)).map (fun n => n.id)
  (nodes.map (qResolve cycle), promotedIds, failedIds,
   quarantined.length - promotedIds.length - failedIds.length)

/-- Result of `cmd_promote`. -/
inductive PromoteOutcome where
  | notFound : PromoteOutcome
  | alreadyConstant : PromoteOutcome
  | promoted : String → PromoteOutcome
deriving DecidableEq

/-- Manual promotion `cmd_promote`: direct promotion of a node to the constant
layer; structured failures leave the table untouched. -/
def cmd_promote (nodeId : String) (nodes : List Node) :
    PromoteOutcome × List Node :=
  match nodes.find? (fun n => n.id = nodeId) with
  | none => (.notFound, nodes)
  | some row =>
    if row.memory_layer = ("constant") then (.alreadyConstant, nodes)
    else (.promoted row.memory_layer,
      nodes.map (fun m =>
        if m.id = nodeId then
          { m with memory_layer := ("constant"),
                   promoted_from := some row.memory_layer,
                   quarantine_until := none, version := m.version + 1 }
        else m))

/-- Soft deletion `cmd_deprecate`: stamps `deprecated_at = now`; the
existence check does not exclude already-deprecated rows. -/
def cmd_deprecate (nowDays : Int) (nodeId : String) (nodes : List Node) :
    Bool × List Node :=
  match nodes.find? (fun n => n.id = nodeId) with
  | none => (false, nodes)
  | some _ =>
    (true, nodes.map (fun m =>
      if m.id = nodeId then { m with deprecated_at := some nowDays } else m))

/-- The durable store as seen by `cmd_migrate`: the `nodes` table's column
list, its rows, the two auxiliary tables, and the created index names. -/
structure SchemaDB where
  cols : List String
  nodes : List Node
  gepa_events : Bool
  gepa_rate_limits : Bool
  indexes : List String
deriving DecidableEq

/-- The seven GEPA columns added by the migration, in source order. -/
def gepaColumns : List String :=
  [("memory_layer"), ("version"), ("deprecated_at"), ("fitness"),
   ("generation"), ("promoted_from"), ("quarantine_until")]

/-- Models `ALTER TABLE nodes ADD COLUMN c <default>`: existing rows
take the column's declared default. -/
def applyColDefault (c : String) (n : Node) : Node :=
  if c = ("memory_layer") then { n with memory_layer := ("mutating") }
  else if c = ("version") then { n with version := 1 }
  else if c = ("deprecated_at") then { n with deprecated_at := none }
  else if c = ("fitness") then { n with fitness := 0.5 }
  else if c = ("generation") then { n with generation := 0 }
  else if c = ("promoted_from") then { n with promoted_from := none }
  else if c = ("quarantine_until") then { n with quarantine_until := none }
  else n

/-- One iteration of the column-adding loop of `cmd_migrate`; `cols` is the
snapshot taken before the loop. -/
def migStep (cols : List String) (acc : SchemaDB × List String)
    (c : String) : SchemaDB × List String :=
  if c ∈ cols then acc
  else
    ({ acc.1 with
        cols := acc.1.cols ++ [c]
        nodes := acc.1.nodes.map (applyColDefault c) },
     acc.2 ++ [("added nodes.") ++ c])

/-- Models `CREATE INDEX IF NOT EXISTS`. -/
def ensureIndex (idx : List String) (i : String) : List String :=
  if i ∈ idx then idx else idx ++ [i]

/-- The classification predicate of the migration's backfill pass. -/
def migConstantPred (n : Node) : Prop :=
  (n.node_type = ("pattern") ∨ n.node_type = ("decision")) ∧ 0.8 ≤ n.importance

instance : DecidablePred migConstantPred :=
  fun n => by unfold migConstantPred; exact inferInstance

/-- The file-backfill predicate (only currently-mutating rows). -/
def migFilePred (n : Node) : Prop :=
  n.node_type = ("file") ∧ n.memory_layer = ("mutating")

instance : DecidablePred migFilePred :=
  fun n => by unfold migFilePred; exact inferInstance

/-- The migration `cmd_migrate`: the one-time additive GEPA schema upgrade.  Adds the
missing GEPA columns, ensures the two auxiliary tables and three indexes,
and — only when `memory_layer` was absent — backfills layers for existing
rows.  Returns the new store and the reported list of applied changes. -/
def cmd_migrate (db : SchemaDB) : SchemaDB × List String :=
  let cols := db.cols
  let acc1 := gepaColumns.foldl (migStep cols) (db, [])
  let db1 := acc1.1
  let msgs1 := acc1.2
  let db2 := { db1 with
    gepa_events := true
    gepa_rate_limits := true
    indexes := ensureIndex (ensureIndex (ensureIndex db1.indexes
      ("idx_nodes_memory_layer")) ("idx_nodes_fitness"))
      ("idx_nodes_generation") }
  if ("memory_layer") ∈ cols then (db2, msgs1)
  else
    let constantCount := (db2.nodes.filter
      (fun n => migConstantPred n)).length
    let db3 := { db2 with nodes := db2.nodes.map (fun n =>
      if migConstantPred n then { n with memory_layer := ("constant") }
      else n) }
    let fileCount := (db3.nodes.filter (fun n => migFilePred n)).length
    let db4 := { db3 with nodes := db3.nodes.map (fun n =>
      if migFilePred n then { n with memory_layer := ("file") } else n) }
    (db4, msgs1 ++ [("classified ") ++ toString constantCount
      ++ (" constant, ") ++ toString fileCount ++ (" file")])

/-- A concrete row builder for the example inputs used by the witnesses
and counterexamples below. -/
def mkNode (nodeId ty content : String) (imp : ℚ) (accessed : Option Int)
    (ac : Int) (layer : String) (dep : Option Int) (fit : ℚ)
    (quar : Option String) : Node :=
  { id := nodeId
    agent_id := AGENT_ID
    node_type := ty
    content := content
    metadata := ("\x7b\x7d")
    importance := imp
    created_at := some 0
    accessed_at := accessed
    access_count := ac
    memory_layer := layer
    version := 1
    deprecated_at := dep
    fitness := fit
    generation := 0
    promoted_from := none
    quarantine_until := quar }

/-- A deprecated but otherwise healthy mutating row (example input). -/
def c1Node : Node :=
  mkNode ("n1") ("fact") ("alpha") 1 (some 0) 0 ("mutating") (some 0)
    (mkRat 1 10) none

/-- A row whose `accessed_at` lies 10 days in the future (example input). -/
def c2Node : Node :=
  mkNode ("n2") ("fact") ("beta") 1 (some 10) 5 ("mutating") none
    (mkRat 1 2) none

/-- Five inbound relations onto `c2Node` (example input). -/
def c2Rels : List Relation :=
  List.replicate 5
    { agent_id := AGENT_ID, source_id := ("s"), target_id := ("n2"),
      relation_type := ("ref") }

/-- A freshly-accessed, never-accessed-count row of importance 1/2
(example input). -/
def c5Node : Node :=
  mkNode ("n5") ("fact") ("gamma") (mkRat 1 2) (some 0) 0 ("mutating") none
    (mkRat 1 2) none

/-- Example query row: equal fitness to `c6NodeB`, higher importance,
lower access count. -/
def c6NodeA : Node :=
  mkNode ("a1") ("fact") ("x one") (mkRat 9 10) (some 0) 0 ("mutating") none
    (mkRat 1 2) none

/-- Example query row: equal fitness to `c6NodeA`, lower importance,
higher access count. -/
def c6NodeB : Node :=
  mkNode ("b2") ("fact") ("x two") (mkRat 1 10) (some 0) 10 ("mutating") none
    (mkRat 1 2) none

/-- A quarantined mutating row with target cycle 5 and fitness 0.9
(example input). -/
def c3Node : Node :=
  mkNode ("q1") ("fact") ("delta") (mkRat 1 2) (some 0) 0 ("mutating") none
    (mkRat 9 10) (some ("5"))

/-- An already-constant row (example input). -/
def c8Node : Node :=
  mkNode ("p1") ("fact") ("eps") (mkRat 1 2) (some 0) 0 ("constant") none
    (mkRat 1 2) none

/-- An already-deprecated row (example input). -/
def c10Node : Node :=
  mkNode ("d1") ("fact") ("zeta") (mkRat 1 2) (some 0) 0 ("mutating") (some 3)
    (mkRat 1 2) none

/-- Claim C4: for a node created through `cmd_gepa_store` without an
explicit caller-supplied layer, the layer follows the precedence rule
(file → `file` regardless of importance; pattern/decision with
importance ≥ 0.8 → `constant`; otherwise `mutating`), and a truthy
caller-supplied layer overrides the rule entirely. -/
theorem C4_gepa_store_layer_rule (value ty : String) (imp : ℚ)
    (layerArg : Option String) (nowDays : Int) (nodeId : String) :
    (∀ l : String, layerArg = some l → l ≠ ("") →
      (cmd_gepa_store value ty imp layerArg nowDays nodeId).memory_layer = l) ∧
    (layerArg = none → ty = ("file") →
      (cmd_gepa_store value ty imp layerArg nowDays nodeId).memory_layer = ("file")) ∧
    (layerArg = none → (ty = ("pattern") ∨ ty = ("decision")) → 0.8 ≤ imp →
      (cmd_gepa_store value ty imp layerArg nowDays nodeId).memory_layer = ("constant")) ∧
    (layerArg = none → ty ≠ ("file") →
      ((ty ≠ ("pattern") ∧ ty ≠ ("decision")) ∨ imp < 0.8) →
      (cmd_gepa_store value ty imp layerArg nowDays nodeId).memory_layer = ("mutating")) := by
  refine ⟨?_, ?_, ?_, ?_⟩
  · intro l hl hne
    simp only [cmd_gepa_store, classifyLayer, hl, truthyS, Option.getD]
    simp [hne]
  · intro hl hty
    simp [cmd_gepa_store, classifyLayer, hl, truthyS, hty]
  · intro hl hty himp
    have h8 : (0.8 : ℚ) ≤ effImportance imp := by
      unfold effImportance
      split
      · rename_i h0
        rw [h0] at himp
        norm_num at himp
      · exact himp
    simp only [cmd_gepa_store, classifyLayer, hl, truthyS]
    have hfile : ty ≠ ("file") := by
      rcases hty with h | h <;> simp [h]
    simp [hfile, hty, h8]
  · intro hl hfile hrest
    simp only [cmd_gepa_store, classifyLayer, hl, truthyS]
    rcases hrest with ⟨h1, h2⟩ | himp
    · simp [hfile, h1, h2]
    · have h8 : ¬ (0.8 : ℚ) ≤ effImportance imp := by
        unfold effImportance
        split
        · norm_num
        · exact not_le.mpr himp
      have hno : ¬ ((ty = ("pattern") ∨ ty = ("decision")) ∧ 0.8 ≤ effImportance imp) := by
        rintro ⟨-, hc⟩
        exact h8 hc
      simp [hfile, hno]

/-- Witness for C4 at a concrete input: a pattern node stored with
importance 0.9 and no explicit layer is classified `constant`. -/
theorem C4_gepa_store_layer_rule_witness :
    (("pattern" : String) = ("pattern") ∨ ("pattern" : String) = ("decision")) ∧
    (0.8 : ℚ) ≤ mkRat 9 10 ∧
    (cmd_gepa_store ("v") ("pattern") (mkRat 9 10) none 0 ("n1")).memory_layer
      = ("constant") :=
  ⟨Or.inl rfl, by norm_num [Rat.mkRat_eq_div],
   (C4_gepa_store_layer_rule ("v") ("pattern") (mkRat 9 10) none 0 ("n1")).2.2.1
     rfl (Or.inl rfl) (by norm_num [Rat.mkRat_eq_div])⟩

/-- Claim C7 counterexample: a node created through the plain store path
after the migration carries the schema-default fitness 0.5, not its
caller-supplied importance 0.9. -/
theorem C7_counterexample :
    (fast_store ("c") ("fact") (mkRat 9 10) 0 ("n1")).importance = mkRat 9 10 ∧
    (fast_store ("c") ("fact") (mkRat 9 10) 0 ("n1")).fitness ≠ mkRat 9 10 := by
  constructor
  · rfl
  · show (0.5 : ℚ) ≠ mkRat 9 10
    norm_num [Rat.mkRat_eq_div]

/-- Claim C7 (amended): immediately after creation, a node stored through
the GEPA store path has fitness equal to its stored importance (the
caller-supplied importance, with a falsy 0 replaced by the default 0.5),
while a node stored through the plain store path gets the schema-default
fitness 0.5 regardless of its importance. -/
theorem C7_store_fitness (value ty : String) (imp : ℚ)
    (layerArg : Option String) (nowDays : Int) (nodeId : String)
    (content2 ty2 : String) (imp2 : ℚ) (nowDays2 : Int) (nodeId2 : String) :
    (cmd_gepa_store value ty imp layerArg nowDays nodeId).fitness
      = (cmd_gepa_store value ty imp layerArg nowDays nodeId).importance ∧
    (cmd_gepa_store value ty imp layerArg nowDays nodeId).fitness
      = effImportance imp ∧
    (fast_store content2 ty2 imp2 nowDays2 nodeId2).fitness = 0.5 :=
  ⟨rfl, rfl, rfl⟩

/-- The rounded numerator is the floor or the floor plus one. -/
theorem round4Int_cases (q : ℚ) :
    round4Int q = Int.floor (q * 10000) ∨
    round4Int q = Int.floor (q * 10000) + 1 := by
  unfold round4Int
  split
  · exact Or.inl rfl
  · split
    · exact Or.inr rfl
    · split
      · exact Or.inl rfl
      · exact Or.inr rfl

/-- Rounding a non-negative rational to 4 places stays non-negative. -/
theorem round4_nonneg {q : ℚ} (hq : 0 ≤ q) : 0 ≤ round4 q := by
  have hf : (0:ℤ) ≤ Int.floor (q * 10000) :=
    Int.floor_nonneg.mpr (by positivity)
  have hk : (0:ℤ) ≤ round4Int q := by
    rcases round4Int_cases q with h | h <;> omega
  unfold round4
  apply div_nonneg _ (by norm_num)
  exact_mod_cast hk

/-- The rounded numerator of a rational `≤ 1` is at most `10000`. -/
theorem round4Int_le_of_le_one {q : ℚ} (hq : q ≤ 1) :
    round4Int q ≤ 10000 := by
  have hle : (q * 10000 : ℚ) ≤ 10000 := by linarith
  have hf10 : Int.floor (q * 10000) ≤ 10000 := by
    have h2 : Int.floor (q * 10000) ≤ Int.floor ((10000 : ℚ)) :=
      Int.floor_le_floor hle
    have h3 : Int.floor ((10000 : ℚ)) = 10000 := by norm_num
    omega
  unfold round4Int
  split
  · exact hf10
  · rename_i h1
    split
    · rename_i h2
      by_contra hcon
      have hf : Int.floor (q * 10000) = 10000 := by omega
      rw [hf] at h2
      have h4 := Int.floor_le (q * 10000)
      rw [hf] at h4
      push_cast at h4 ⊢
      linarith
    · split
      · exact hf10
      · by_contra hcon
        have hf : Int.floor (q * 10000) = 10000 := by omega
        rw [hf] at h1
        push_cast at h1
        linarith

/-- Rounding a rational in `[0,1]` to 4 places stays in `[0,1]`. -/
theorem round4_mem_unit {q : ℚ} (h0 : 0 ≤ q) (h1 : q ≤ 1) :
    0 ≤ round4 q ∧ round4 q ≤ 1 := by
  refine ⟨round4_nonneg h0, ?_⟩
  unfold round4
  rw [div_le_one (by norm_num : (0:ℚ) < 10000)]
  exact_mod_cast round4Int_le_of_le_one h1

/-- The rounded value exceeds `q - 1/10000`. -/
theorem round4_gt_sub {q : ℚ} : q - 1/10000 < round4 q := by
  have hfl : q * 10000 - 1 < (Int.floor (q * 10000) : ℚ) :=
    Int.sub_one_lt_floor (q * 10000)
  have hk : Int.floor (q * 10000) ≤ round4Int q := by
    rcases round4Int_cases q with h | h <;> omega
  have hkq : (Int.floor (q * 10000) : ℚ) ≤ (round4Int q : ℚ) := by
    exact_mod_cast hk
  unfold round4
  rw [lt_div_iff₀ (by norm_num : (0:ℚ) < 10000)]
  nlinarith

/-- The seed of a left `max`-fold bounds it from below. -/
theorem foldl_max_init_le (l : List Int) (a : Int) : a ≤ l.foldl max a := by
  induction l generalizing a with
  | nil => exact le_refl a
  | cons b t ih => exact le_trans (le_max_left a b) (ih (max a b))

/-- Every member of a list bounds its left `max`-fold from below. -/
theorem mem_le_foldl_max {x : Int} (l : List Int) (a : Int) (hx : x ∈ l) :
    x ≤ l.foldl max a := by
  induction l generalizing a with
  | nil => cases hx
  | cons b t ih =>
    rcases List.mem_cons.mp hx with rfl | hx2
    · exact le_trans (le_max_right a x) (foldl_max_init_le t (max a x))
    · exact ih (max a b) hx2

/-- On a population of non-negative access counts, the normalisation
divisor is positive and dominates every row's count. -/
theorem maxAccessOf_spec (rows : List Node)
    (hac : ∀ m ∈ rows, 0 ≤ m.access_count) :
    0 < maxAccessOf rows ∧ ∀ n ∈ rows, n.access_count ≤ maxAccessOf rows := by
  cases rows with
  | nil =>
    constructor
    · norm_num [maxAccessOf]
    · intro n hn
      cases hn
  | cons r t =>
    have hmax : maxAccessOf (r :: t)
        = (if (t.map (fun n => n.access_count)).foldl max r.access_count = 0
           then 1
           else (t.map (fun n => n.access_count)).foldl max r.access_count) :=
      rfl
    have hrle : r.access_count
        ≤ (t.map (fun n => n.access_count)).foldl max r.access_count :=
      foldl_max_init_le _ _
    have htle : ∀ n ∈ t, n.access_count
        ≤ (t.map (fun n => n.access_count)).foldl max r.access_count := by
      intro n hn
      exact mem_le_foldl_max _ _ (List.mem_map.mpr ⟨n, hn, rfl⟩)
    have hm0 : 0 ≤ (t.map (fun n => n.access_count)).foldl max r.access_count :=
      le_trans (hac r (List.mem_cons_self r t)) hrle
    rw [hmax]
    split
    · rename_i hz
      refine ⟨by norm_num, ?_⟩
      intro n hn
      rcases List.mem_cons.mp hn with rfl | hn2
      · omega
      · have := htle n hn2
        omega
    · rename_i hz
      refine ⟨by omega, ?_⟩
      intro n hn
      rcases List.mem_cons.mp hn with rfl | hn2
      · exact hrle
      · exact htle n hn2

/-- The normalised access signal lies in `[0,1]` on such a population. -/
theorem normAccess_mem_unit {rows : List Node} {n : Node} (hn : n ∈ rows)
    (hac : ∀ m ∈ rows, 0 ≤ m.access_count) :
    0 ≤ normAccess (maxAccessOf rows) n ∧
    normAccess (maxAccessOf rows) n ≤ 1 := by
  obtain ⟨hpos, hle⟩ := maxAccessOf_spec rows hac
  unfold normAccess
  constructor
  · apply div_nonneg
    · exact_mod_cast hac n hn
    · exact_mod_cast hpos.le
  · rw [div_le_one (by exact_mod_cast hpos)]
    exact_mod_cast hle n hn

/-- With no future access stamp and a positive age horizon, the age
signal lies in `[0,1]`. -/
theorem ageFactor_mem_unit {nowDays : Int} {maxAge : ℚ} {n : Node}
    (hd : 0 ≤ daysSince nowDays n) (hm : 0 < maxAge) :
    0 ≤ ageFactor nowDays maxAge n ∧ ageFactor nowDays maxAge n ≤ 1 := by
  unfold ageFactor
  constructor
  · exact le_max_left 0 _
  · apply max_le (by norm_num)
    have hdiv : (0:ℚ) ≤ (daysSince nowDays n : ℚ) / maxAge :=
      div_nonneg (by exact_mod_cast hd) hm.le
    linarith

/-- The referral signal always lies in `[0,1]`. -/
theorem referralFactor_mem_unit (rels : List Relation) (n : Node) :
    0 ≤ referralFactor rels n ∧ referralFactor rels n ≤ 1 := by
  unfold referralFactor
  constructor
  · apply le_min (by norm_num)
    apply div_nonneg _ (by norm_num)
    exact_mod_cast Nat.cast_nonneg (inboundCount rels n.id)
  · exact min_le_left 1 _

/-- Claim C2 (amended): over a population in which every node's importance
lies in [0,1], every access count is non-negative, no parseable
`accessed_at` lies in the future, and the age horizon is positive, the
bulk fitness recomputation writes back a fitness in [0,1] for every
selected node. -/
theorem C2_fitness_update_bounded (nowDays maxAgeDaysArg : Int)
    (layerFilter : Option String) (nodes : List Node) (rels : List Relation)
    (himp : ∀ n ∈ nodes, 0 ≤ n.importance ∧ n.importance ≤ 1)
    (hac : ∀ n ∈ nodes, 0 ≤ n.access_count)
    (hts : ∀ n ∈ nodes, ∀ t, n.accessed_at = some t → t ≤ nowDays)
    (hage : 0 < maxAgeDaysArg) :
    ∀ m ∈ (cmd_fitness_update nowDays maxAgeDaysArg layerFilter nodes rels).1,
      layerSelect layerFilter m = true → 0 ≤ m.fitness ∧ m.fitness ≤ 1 := by
  intro m hm hsel
  simp only [cmd_fitness_update, List.mem_map] at hm
  obtain ⟨n, hn, rfl⟩ := hm
  by_cases h : layerSelect layerFilter n = true
  · rw [if_pos h] at hsel ⊢
    have hnrows : n ∈ nodes.filter (layerSelect layerFilter) :=
      List.mem_filter.mpr ⟨hn, h⟩
    have hacrows : ∀ x ∈ nodes.filter (layerSelect layerFilter),
        0 ≤ x.access_count :=
      fun x hx => hac x (List.mem_filter.mp hx).1
    obtain ⟨hna, hnb⟩ := normAccess_mem_unit hnrows hacrows
    have hM : 0 < (if maxAgeDaysArg = 0 then (90:ℚ) else (maxAgeDaysArg:ℚ)) := by
      split
      · norm_num
      · exact_mod_cast hage
    have hd : 0 ≤ daysSince nowDays n := by
      unfold daysSince
      cases hacc : n.accessed_at with
      | none => exact le_refl 0
      | some t =>
        have := hts n hn t hacc
        show 0 ≤ nowDays - t
        omega
    obtain ⟨hga, hgb⟩ := ageFactor_mem_unit hd hM
    obtain ⟨hra, hrb⟩ := referralFactor_mem_unit rels n
    obtain ⟨hia, hib⟩ := himp n hn
    have hS0 : 0 ≤ 0.3 * normAccess
          (maxAccessOf (nodes.filter (layerSelect layerFilter))) n
        + 0.3 * n.importance
        + 0.2 * ageFactor nowDays
            (if maxAgeDaysArg = 0 then (90:ℚ) else (maxAgeDaysArg:ℚ)) n
        + 0.2 * referralFactor rels n := by linarith
    have hS1 : 0.3 * normAccess
          (maxAccessOf (nodes.filter (layerSelect layerFilter))) n
        + 0.3 * n.importance
        + 0.2 * ageFactor nowDays
            (if maxAgeDaysArg = 0 then (90:ℚ) else (maxAgeDaysArg:ℚ)) n
        + 0.2 * referralFactor rels n ≤ 1 := by linarith
    exact round4_mem_unit hS0 hS1
  · rw [if_neg h] at hsel
    exact absurd hsel h

/-- Claim C5: over a population where every node has `access_count = 0`,
uniform importance `I`, `accessed_at = now` and zero inbound relations,
the bulk recomputation writes `round4 (0.2 + 0.3 * I)` to every node; at
`I = 1/2` that value is `0.35`. -/
theorem C5_fitness_update_uniform (nowDays maxAgeDaysArg : Int)
    (nodes : List Node) (rels : List Relation) (I : ℚ)
    (hpop : ∀ n ∈ nodes, n.access_count = 0 ∧ n.importance = I ∧
      n.accessed_at = some nowDays)
    (hrel : ∀ n ∈ nodes, inboundCount rels n.id = 0) :
    (∀ m ∈ (cmd_fitness_update nowDays maxAgeDaysArg none nodes rels).1,
      m.fitness = round4 (0.2 + 0.3 * I)) ∧
    round4 (0.2 + 0.3 * (1/2 : ℚ)) = 0.35 := by
  constructor
  · intro m hm
    simp only [cmd_fitness_update, List.mem_map] at hm
    obtain ⟨n, hn, rfl⟩ := hm
    have hsel : layerSelect none n = true := rfl
    rw [if_pos hsel]
    obtain ⟨hac, himp, hacc⟩ := hpop n hn
    have h1 : normAccess (maxAccessOf (nodes.filter (layerSelect none))) n
        = 0 := by
      unfold normAccess
      rw [hac]
      norm_num
    have h2 : ageFactor nowDays
        (if maxAgeDaysArg = 0 then (90:ℚ) else (maxAgeDaysArg:ℚ)) n = 1 := by
      unfold ageFactor daysSince
      rw [hacc]
      simp
    have h3 : referralFactor rels n = 0 := by
      unfold referralFactor
      rw [hrel n hn]
      simp
    show computeFitness nowDays
        (if maxAgeDaysArg = 0 then (90:ℚ) else (maxAgeDaysArg:ℚ))
        (maxAccessOf (nodes.filter (layerSelect none))) rels n
      = round4 (0.2 + 0.3 * I)
    unfold computeFitness
    rw [h1, h2, h3, himp]
    congr 1
    ring
  · unfold round4 round4Int
    norm_num

/-- Witness for C5 at a concrete input: a single fresh node of importance
1/2 and no inbound relations gets fitness `round4 (0.2 + 0.3 * (1/2))`. -/
theorem C5_fitness_update_uniform_witness :
    (∀ n ∈ [c5Node], n.access_count = 0 ∧ n.importance = mkRat 1 2 ∧
      n.accessed_at = some 0) ∧
    (∀ n ∈ [c5Node], inboundCount ([] : List Relation) n.id = 0) ∧
    (∀ m ∈ (cmd_fitness_update 0 90 none [c5Node] []).1,
      m.fitness = round4 (0.2 + 0.3 * mkRat 1 2)) :=
  ⟨by decide, by decide,
   (C5_fitness_update_uniform 0 90 [c5Node] [] (mkRat 1 2)
     (by decide) (by decide)).1⟩

/-- Witness for C2 at a concrete input: a well-formed one-node population
keeps its recomputed fitness inside [0,1]. -/
theorem C2_fitness_update_bounded_witness :
    (∀ n ∈ [c5Node], 0 ≤ n.importance ∧ n.importance ≤ 1) ∧
    (∀ n ∈ [c5Node], 0 ≤ n.access_count) ∧
    (∀ n ∈ [c5Node], ∀ t, n.accessed_at = some t → t ≤ 0) ∧
    (0 : Int) < 90 ∧
    (∀ m ∈ (cmd_fitness_update 0 90 none [c5Node] []).1,
      layerSelect none m = true → 0 ≤ m.fitness ∧ m.fitness ≤ 1) :=
  ⟨by decide, by decide,
   by
    intro n hn t ht
    have hn2 : n = c5Node := by simpa using hn
    subst hn2
    simp [c5Node, mkNode] at ht
    omega,
   by decide,
   C2_fitness_update_bounded 0 90 none [c5Node] [] (by decide) (by decide)
     (by
       intro n hn t ht
       have hn2 : n = c5Node := by simpa using hn
       subst hn2
       simp [c5Node, mkNode] at ht
       omega)
     (by decide)⟩

/-- Claim C2 counterexample: a population whose single node has importance
1 (inside [0,1]) but a 10-days-in-the-future `accessed_at`, maximal
access count and five inbound relations gets written-back fitness
5111/5000 > 1 — the source clamps `age_factor` only from below. -/
theorem C2_counterexample :
    (0 ≤ c2Node.importance ∧ c2Node.importance ≤ 1) ∧
    (cmd_fitness_update 0 90 none [c2Node] c2Rels).1
      = [{ c2Node with fitness := mkRat 5111 5000 }] ∧
    (1 : ℚ) < mkRat 5111 5000 := by
  refine ⟨⟨by norm_num [c2Node, mkNode], by norm_num [c2Node, mkNode]⟩, ?_, by
    rw [Rat.mkRat_eq_div]
    norm_num⟩
  have hstep : (cmd_fitness_update 0 90 none [c2Node] c2Rels).1
      = [{ c2Node with fitness := computeFitness 0 ((90:Int):ℚ) 5 c2Rels c2Node }] :=
    rfl
  rw [hstep]
  have hval : computeFitness 0 ((90:Int):ℚ) 5 c2Rels c2Node
      = mkRat 5111 5000 := by
    unfold computeFitness normAccess ageFactor daysSince referralFactor
      inboundCount round4 round4Int
    rw [Rat.mkRat_eq_div]
    norm_num [c2Node, mkNode, c2Rels, max_def, min_def, List.replicate,
      List.filter]
  rw [hval]

/-- Claim C1: the source's behaviour at a deprecated node — contrary to
the spec's invariant, the GEPA-aware query returns it and the bulk
fitness recomputation reads it and rewrites its fitness. -/
theorem C1_deprecated_node_still_selected :
    c1Node.deprecated_at ≠ none ∧
    cmd_gepa_query ("alpha") none 10 [c1Node] = [c1Node] ∧
    (cmd_fitness_update 0 90 none [c1Node] []).1
      = [{ c1Node with fitness := mkRat 1 2 }] ∧
    mkRat 1 2 ≠ c1Node.fitness := by
  refine ⟨by decide, by decide, ?_, by decide⟩
  have hstep : (cmd_fitness_update 0 90 none [c1Node] []).1
      = [{ c1Node with fitness := computeFitness 0 ((90:Int):ℚ) 1 [] c1Node }] :=
    rfl
  rw [hstep]
  have hval : computeFitness 0 ((90:Int):ℚ) 1 [] c1Node = mkRat 1 2 := by
    unfold computeFitness normAccess ageFactor daysSince referralFactor
      inboundCount round4 round4Int
    rw [Rat.mkRat_eq_div]
    norm_num [c1Node, mkNode, max_def, min_def, List.filter]
  rw [hval]

/-- Claim C6 counterexample: on two rows with equal fitness the GEPA
query breaks the tie by descending importance, not by descending access
count — the row with the lower access count comes first. -/
theorem C6_counterexample :
    c6NodeA.fitness = c6NodeB.fitness ∧
    c6NodeA.access_count < c6NodeB.access_count ∧
    cmd_gepa_query ("x") none 5 [c6NodeB, c6NodeA] = [c6NodeA, c6NodeB] := by
  refine ⟨by decide, by decide, by decide⟩

/-- Claim C6 (amended): with a text filter producing at least one token
and a positive limit, every result of either query path belongs to the
table, is agent-scoped, passes the layer filter (GEPA path), and contains
some token as a case-insensitive substring; the GEPA path is sorted by
descending fitness with ties broken by descending importance, the plain
path by descending importance with ties broken by descending access
count; and both paths return at most `limit` rows. -/
theorem C6_query_ordering_and_matching (q : String)
    (layerFilter typeFilter : Option String) (limitArg limitF : Nat)
    (nodes : List Node)
    (htok : pyTokens q ≠ [])
    (hlim : limitArg ≠ 0) :
    (∀ r ∈ cmd_gepa_query q layerFilter limitArg nodes,
      r ∈ nodes ∧ r.agent_id = AGENT_ID ∧ layerSelect layerFilter r = true ∧
      ∃ w ∈ pyTokens q, w <:+: lowerChars r.content) ∧
    List.Sorted fitOrder (cmd_gepa_query q layerFilter limitArg nodes) ∧
    (cmd_gepa_query q layerFilter limitArg nodes).length ≤ limitArg ∧
    (∀ r ∈ fast_query q limitF typeFilter nodes,
      r ∈ nodes ∧ r.agent_id = AGENT_ID ∧
      ∃ w ∈ pyTokens q, w <:+: lowerChars r.content) ∧
    List.Sorted impOrder (fast_query q limitF typeFilter nodes) ∧
    (fast_query q limitF typeFilter nodes).length ≤ limitF := by
  have hmatch : ∀ n : Node, matchesText q n = true →
      ∃ w ∈ pyTokens q, w <:+: lowerChars n.content := by
    intro n hm
    unfold matchesText at hm
    rw [Bool.or_eq_true] at hm
    rcases hm with he | ha
    · exact absurd (List.isEmpty_iff.mp he) htok
    · obtain ⟨w, hw, hinf⟩ := List.any_eq_true.mp ha
      exact ⟨w, hw, of_decide_eq_true hinf⟩
  refine ⟨?_, ?_, ?_, ?_, ?_, ?_⟩
  · intro r hr
    have hr2 : r ∈ List.insertionSort fitOrder (nodes.filter (fun n =>
        n.agent_id = AGENT_ID && layerSelect layerFilter n && matchesText q n)) :=
      List.take_subset _ _ hr
    have hr3 := (List.perm_insertionSort fitOrder _).mem_iff.mp hr2
    obtain ⟨hmem, hcond⟩ := List.mem_filter.mp hr3
    rw [Bool.and_eq_true] at hcond
    obtain ⟨h12, h3⟩ := hcond
    rw [Bool.and_eq_true] at h12
    obtain ⟨h1, h2⟩ := h12
    exact ⟨hmem, of_decide_eq_true h1, h2, hmatch r h3⟩
  · exact List.Pairwise.sublist (List.take_sublist _ _)
      (List.sorted_insertionSort fitOrder _)
  · simp only [cmd_gepa_query]
    rw [if_neg hlim]
    exact List.length_take_le _ _
  · intro r hr
    have hr2 : r ∈ List.insertionSort impOrder (nodes.filter (fun n =>
        n.agent_id = AGENT_ID && matchesText q n &&
        (if truthyS typeFilter then n.node_type = typeFilter.getD ("")
         else true))) :=
      List.take_subset _ _ hr
    have hr3 := (List.perm_insertionSort impOrder _).mem_iff.mp hr2
    obtain ⟨hmem, hcond⟩ := List.mem_filter.mp hr3
    rw [Bool.and_eq_true] at hcond
    obtain ⟨h12, h3⟩ := hcond
    rw [Bool.and_eq_true] at h12
    obtain ⟨h1, h2⟩ := h12
    exact ⟨hmem, of_decide_eq_true h1, hmatch r h2⟩
  · exact List.Pairwise.sublist (List.take_sublist _ _)
      (List.sorted_insertionSort impOrder _)
  · exact List.length_take_le _ _

/-- Witness for C6 at a concrete input: a one-token query with
limit 5 over a single row is sorted and within the limit. -/
theorem C6_query_ordering_and_matching_witness :
    pyTokens ("x") ≠ [] ∧ (5 : ℕ) ≠ 0 ∧
    List.Sorted fitOrder (cmd_gepa_query ("x") none 5 [c6NodeA]) ∧
    (cmd_gepa_query ("x") none 5 [c6NodeA]).length ≤ 5 :=
  ⟨by decide, by decide,
   (C6_query_ordering_and_matching ("x") none none 5 5 [c6NodeA]
     (by decide) (by decide)).2.1,
   (C6_query_ordering_and_matching ("x") none none 5 5 [c6NodeA]
     (by decide) (by decide)).2.2.1⟩

/-- Splitting a filtered count along a second Boolean test. -/
theorem length_filter_split {α : Type} (p r : α → Bool) (l : List α) :
    (l.filter (fun x => p x && r x)).length
      + (l.filter (fun x => p x && !(r x))).length
      = (l.filter p).length := by
  induction l with
  | nil => rfl
  | cons a t ih =>
    cases hp : p a <;> cases hr : r a <;>
      simp [List.filter_cons, hp, hr] <;> omega

/-- Claim C3: quarantine resolution is the three-way state machine over
every active mutating node with a parseable target cycle: reached-and-fit
promotes (constant layer, `promoted_from = mutating`, quarantine cleared,
version + 1); reached-but-unfit only clears `quarantine_until`; not yet
reached leaves the node untouched and it is counted as still pending. -/
theorem C3_quarantine_state_machine (cycle : Int) (n : Node) (s : String)
    (qc : Int)
    (hlayer : n.memory_layer = ("mutating"))
    (hdep : n.deprecated_at = none)
    (hq : n.quarantine_until = some s)
    (hparse : parseIntStr s = some qc) :
    (qc ≤ cycle → 0.8 ≤ n.fitness → qResolve cycle n = qPromote n) ∧
    (qc ≤ cycle → n.fitness < 0.8 →
      qResolve cycle n = { n with quarantine_until := none }) ∧
    (cycle < qc → qResolve cycle n = n ∧ qCycleReached cycle n = false) ∧
    (∀ nodes : List Node,
      (cmd_quarantine_check cycle nodes).1 = nodes.map (qResolve cycle) ∧
      (cmd_quarantine_check cycle nodes).2.2.2
        = (nodes.filter
            (fun m => qSelect m && !(qCycleReached cycle m))).length) := by
  have hs : s ≠ ("") := by
    rintro rfl
    have hemp : parseIntStr ("") = none := rfl
    rw [hemp] at hparse
    cases hparse
  have hsel : qSelect n = true := by
    unfold qSelect
    rw [hq, hdep, hlayer]
    simp [hs]
  refine ⟨?_, ?_, ?_, ?_⟩
  · intro hcy hfit
    unfold qResolve
    simp only [hsel, if_true, hq, hparse]
    rw [if_pos hcy, if_pos hfit]
  · intro hcy hfit
    unfold qResolve
    simp only [hsel, if_true, hq, hparse]
    rw [if_pos hcy, if_neg (not_le.mpr hfit)]
  · intro hlt
    constructor
    · unfold qResolve
      simp only [hsel, if_true, hq, hparse]
      rw [if_neg (not_le.mpr hlt)]
    · unfold qCycleReached
      rw [hq]
      simp only [hparse]
      exact decide_eq_false (not_le.mpr hlt)
  · intro nodes
    refine ⟨rfl, ?_⟩
    show (nodes.filter qSelect).length
        - ((nodes.filter (fun m => qResolvedNow cycle m
            && decide ((0.8:ℚ) ≤ m.fitness))).map (fun x => x.id)).length
        - ((nodes.filter (fun m => qResolvedNow cycle m
            && decide (m.fitness < (0.8:ℚ)))).map (fun x => x.id)).length
      = (nodes.filter (fun m => qSelect m && !(qCycleReached cycle m))).length
    rw [List.length_map, List.length_map]
    have hA : (nodes.filter (fun x => qResolvedNow cycle x
          && decide ((0.8:ℚ) ≤ x.fitness))).length
        + (nodes.filter (fun x => qResolvedNow cycle x
          && !(decide ((0.8:ℚ) ≤ x.fitness)))).length
        = (nodes.filter (qResolvedNow cycle)).length :=
      length_filter_split _ _ nodes
    have hB : (nodes.filter (fun x => qSelect x && qCycleReached cycle x)).length
        + (nodes.filter (fun x => qSelect x && !(qCycleReached cycle x))).length
        = (nodes.filter qSelect).length :=
      length_filter_split _ _ nodes
    have hflip : nodes.filter (fun m => qResolvedNow cycle m
          && decide (m.fitness < (0.8:ℚ)))
        = nodes.filter (fun m => qResolvedNow cycle m
          && !(decide ((0.8:ℚ) ≤ m.fitness))) :=
      List.filter_congr (fun m _ => by
        have hd : decide (m.fitness < (0.8:ℚ))
            = !(decide ((0.8:ℚ) ≤ m.fitness)) := by
          rw [← decide_not]
          exact decide_eq_decide.mpr not_le.symm
        rw [hd])
    have hres : nodes.filter (qResolvedNow cycle)
        = nodes.filter (fun x => qSelect x && qCycleReached cycle x) := rfl
    rw [hflip]
    rw [hres] at hA
    omega

/-- Witness for C3 at a concrete input: a quarantined node with target
cycle 5 and fitness 0.9 is promoted at cycle 6. -/
theorem C3_quarantine_state_machine_witness :
    c3Node.memory_layer = ("mutating") ∧ c3Node.deprecated_at = none ∧
    c3Node.quarantine_until = some ("5") ∧ parseIntStr ("5") = some 5 ∧
    (5:Int) ≤ 6 ∧ (0.8:ℚ) ≤ c3Node.fitness ∧
    qResolve 6 c3Node = qPromote c3Node :=
  ⟨rfl, rfl, rfl, by decide, by decide,
   by norm_num [c3Node, mkNode, Rat.mkRat_eq_div],
   (C3_quarantine_state_machine 6 c3Node ("5") 5 rfl rfl rfl (by decide)).1
     (by decide) (by norm_num [c3Node, mkNode, Rat.mkRat_eq_div])⟩

/-- Claim C8: `cmd_promote` reports not-found when no row has the id and
already-constant when the found row is already in the constant layer —
leaving the table untouched in both cases — and otherwise promotes:
constant layer, `promoted_from` = prior layer, quarantine cleared,
version incremented. -/
theorem C8_promote_behaviour (nodeId : String) (nodes : List Node) :
    ((∀ n ∈ nodes, n.id ≠ nodeId) →
      cmd_promote nodeId nodes = (PromoteOutcome.notFound, nodes)) ∧
    (∀ row, nodes.find? (fun n => n.id = nodeId) = some row →
      row.memory_layer = ("constant") →
      cmd_promote nodeId nodes = (PromoteOutcome.alreadyConstant, nodes)) ∧
    (∀ row, nodes.find? (fun n => n.id = nodeId) = some row →
      row.memory_layer ≠ ("constant") →
      cmd_promote nodeId nodes
        = (PromoteOutcome.promoted row.memory_layer,
           nodes.map (fun m =>
             if m.id = nodeId then
               { m with memory_layer := ("constant"),
                        promoted_from := some row.memory_layer,
                        quarantine_until := none, version := m.version + 1 }
             else m))) := by
  refine ⟨?_, ?_, ?_⟩
  · intro hnone
    have hfind : nodes.find? (fun n => n.id = nodeId) = none := by
      rw [List.find?_eq_none]
      intro x hx
      simpa using hnone x hx
    simp only [cmd_promote, hfind]
  · intro row hrow hconst
    simp only [cmd_promote, hrow]
    rw [if_pos hconst]
  · intro row hrow hconst
    simp only [cmd_promote, hrow]
    rw [if_neg hconst]

/-- Witness for C8 at a concrete input: promoting an already-constant row
fails with the already-constant outcome and leaves the table unchanged. -/
theorem C8_promote_behaviour_witness :
    List.find? (fun n => n.id = ("p1")) [c8Node] = some c8Node ∧
    c8Node.memory_layer = ("constant") ∧
    cmd_promote ("p1") [c8Node] = (PromoteOutcome.alreadyConstant, [c8Node]) :=
  ⟨by decide, rfl,
   (C8_promote_behaviour ("p1") [c8Node]).2.1 c8Node (by decide) rfl⟩

/-- Claim C10: deprecating an already-deprecated node succeeds — the
existence check does not exclude deprecated rows — and overwrites
`deprecated_at` with the current time. -/
theorem C10_deprecate_overwrites (nowDays : Int) (nodeId : String)
    (nodes : List Node) (n : Node) (t : Int)
    (hn : n ∈ nodes) (hid : n.id = nodeId)
    (hdep : n.deprecated_at = some t) :
    (cmd_deprecate nowDays nodeId nodes).1 = true ∧
    (cmd_deprecate nowDays nodeId nodes).2
      = nodes.map (fun m =>
          if m.id = nodeId then { m with deprecated_at := some nowDays }
          else m) ∧
    { n with deprecated_at := some nowDays }
      ∈ (cmd_deprecate nowDays nodeId nodes).2 := by
  have hsome : (nodes.find? (fun m => m.id = nodeId)).isSome = true :=
    List.find?_isSome.mpr ⟨n, hn, by simpa using hid⟩
  cases hfind : nodes.find? (fun m => m.id = nodeId) with
  | none =>
    rw [hfind] at hsome
    cases hsome
  | some row =>
    refine ⟨?_, ?_, ?_⟩
    · simp only [cmd_deprecate, hfind]
    · simp only [cmd_deprecate, hfind]
    · simp only [cmd_deprecate, hfind]
      exact List.mem_map.mpr ⟨n, hn, by rw [if_pos hid]⟩

/-- Witness for C10 at a concrete input: deprecating the already-
deprecated row `c10Node` succeeds and restamps it. -/
theorem C10_deprecate_overwrites_witness :
    c10Node ∈ [c10Node] ∧ c10Node.id = ("d1") ∧
    c10Node.deprecated_at = some 3 ∧
    (cmd_deprecate 7 ("d1") [c10Node]).1 = true ∧
    { c10Node with deprecated_at := some 7 }
      ∈ (cmd_deprecate 7 ("d1") [c10Node]).2 :=
  ⟨by decide, rfl, rfl,
   (C10_deprecate_overwrites 7 ("d1") [c10Node] c10Node 3
     (by decide) rfl rfl).1,
   (C10_deprecate_overwrites 7 ("d1") [c10Node] c10Node 3
     (by decide) rfl rfl).2.2⟩

/-- A fold of `migStep` over columns that are all already present is the
identity. -/
theorem foldl_migStep_nop (cols0 : List String) (cs : List String)
    (acc : SchemaDB × List String) (h : ∀ c ∈ cs, c ∈ cols0) :
    cs.foldl (migStep cols0) acc = acc := by
  induction cs generalizing acc with
  | nil => rfl
  | cons c t ih =>
    rw [List.foldl_cons]
    have hstep : migStep cols0 acc c = acc := by
      unfold migStep
      rw [if_pos (h c (List.mem_cons_self c t))]
    rw [hstep]
    exact ih acc (fun x hx => h x (List.mem_cons_of_mem c hx))

/-- The column list only grows along a `migStep` fold. -/
theorem foldl_migStep_cols_mono (cols0 : List String) (cs : List String) :
    ∀ (acc : SchemaDB × List String) (x : String), x ∈ acc.1.cols →
      x ∈ (cs.foldl (migStep cols0) acc).1.cols := by
  induction cs with
  | nil =>
    intro acc x hx
    exact hx
  | cons c t ih =>
    intro acc x hx
    rw [List.foldl_cons]
    apply ih
    unfold migStep
    split
    · exact hx
    · exact List.mem_append_left _ hx

/-- After the column-adding fold, every processed column name is present
(provided the snapshot columns were already present in the accumulator). -/
theorem foldl_migStep_covers (cols0 : List String) (cs : List String)
    (acc : SchemaDB × List String)
    (hacc : ∀ x ∈ cols0, x ∈ acc.1.cols) :
    ∀ c ∈ cs, c ∈ (cs.foldl (migStep cols0) acc).1.cols := by
  induction cs generalizing acc with
  | nil =>
    intro c hc
    cases hc
  | cons c t ih =>
    intro d hd
    rw [List.foldl_cons]
    have hacc2 : ∀ x ∈ cols0, x ∈ (migStep cols0 acc c).1.cols := by
      intro x hx
      unfold migStep
      split
      · exact hacc x hx
      · exact List.mem_append_left _ (hacc x hx)
    rcases List.mem_cons.mp hd with rfl | hd2
    · apply foldl_migStep_cols_mono
      unfold migStep
      split
      · rename_i hc
        exact hacc d hc
      · exact List.mem_append_right _ (by simp)
    · exact ih _ hacc2 d hd2

/-- The store produced by one migration run: the rewritten column list,
both auxiliary tables present, and the three ensured indexes. -/
theorem cmd_migrate_fst_fields (db : SchemaDB) :
    (cmd_migrate db).1.cols
        = (gepaColumns.foldl (migStep db.cols) (db, ([] : List String))).1.cols ∧
    (cmd_migrate db).1.gepa_events = true ∧
    (cmd_migrate db).1.gepa_rate_limits = true ∧
    (cmd_migrate db).1.indexes
        = ensureIndex (ensureIndex (ensureIndex
            (gepaColumns.foldl (migStep db.cols) (db, ([] : List String))).1.indexes
            ("idx_nodes_memory_layer")) ("idx_nodes_fitness"))
            ("idx_nodes_generation") := by
  refine ⟨?_, ?_, ?_, ?_⟩ <;>
    (simp only [cmd_migrate]; split <;> rfl)

/-- On a store that already carries every GEPA column, both auxiliary
tables and the three indexes, the migration run is a no-op reporting an
empty change list. -/
theorem cmd_migrate_nop (s : SchemaDB)
    (hall : ∀ c ∈ gepaColumns, c ∈ s.cols)
    (he : s.gepa_events = true) (hl : s.gepa_rate_limits = true)
    (h1 : ("idx_nodes_memory_layer") ∈ s.indexes)
    (h2 : ("idx_nodes_fitness") ∈ s.indexes)
    (h3 : ("idx_nodes_generation") ∈ s.indexes) :
    cmd_migrate s = (s, ([] : List String)) := by
  have hml : ("memory_layer") ∈ s.cols := hall ("memory_layer") (by decide)
  have hfold : gepaColumns.foldl (migStep s.cols) (s, ([] : List String))
      = (s, []) :=
    foldl_migStep_nop s.cols gepaColumns (s, []) hall
  have hi1 : ensureIndex s.indexes ("idx_nodes_memory_layer") = s.indexes := by
    unfold ensureIndex
    rw [if_pos h1]
  have hi2 : ensureIndex s.indexes ("idx_nodes_fitness") = s.indexes := by
    unfold ensureIndex
    rw [if_pos h2]
  have hi3 : ensureIndex s.indexes ("idx_nodes_generation") = s.indexes := by
    unfold ensureIndex
    rw [if_pos h3]
  have hupd : { s with
      gepa_events := true
      gepa_rate_limits := true
      indexes := ensureIndex (ensureIndex (ensureIndex s.indexes
        ("idx_nodes_memory_layer")) ("idx_nodes_fitness"))
        ("idx_nodes_generation") } = s := by
    rw [hi1, hi2, hi3]
    cases s with
    | mk c n e r i =>
      have he2 : e = true := he
      have hl2 : r = true := hl
      rw [he2, hl2]
  simp only [cmd_migrate]
  rw [hfold]
  rw [if_pos hml]
  rw [show ((s, ([] : List String)).1) = s from rfl] at *
  exact congrArg (fun z => (z, ([] : List String))) hupd

/-- Claim C9: the schema migration is idempotent — after one completed
run, a second run changes nothing and reports an empty change list. -/
theorem C9_migrate_idempotent (db : SchemaDB) :
    cmd_migrate (cmd_migrate db).1 = ((cmd_migrate db).1, ([] : List String)) := by
  obtain ⟨hc, he, hl, hi⟩ := cmd_migrate_fst_fields db
  have hcols1 : ∀ c ∈ gepaColumns, c ∈ (cmd_migrate db).1.cols := by
    rw [hc]
    exact foldl_migStep_covers db.cols gepaColumns (db, []) (fun x hx => hx)
  have hmem1 : ∀ (idx : List String) (i : String), i ∈ ensureIndex idx i := by
    intro idx i
    unfold ensureIndex
    split
    · assumption
    · exact List.mem_append_right _ (by simp)
  have hmem2 : ∀ (idx : List String) (i j : String),
      i ∈ idx → i ∈ ensureIndex idx j := by
    intro idx i j h
    unfold ensureIndex
    split
    · exact h
    · exact List.mem_append_left _ h
  refine cmd_migrate_nop _ hcols1 he hl ?_ ?_ ?_
  · rw [hi]
    exact hmem2 _ _ _ (hmem2 _ _ _ (hmem1 _ _))
  · rw [hi]
    exact hmem2 _ _ _ (hmem1 _ _)
  · rw [hi]
    exact hmem1 _ _
